import Mathlib

/-!
Verification of the workflow execution engine of the ReAct-vs-Rigid-Plan
repository (backend/agents/services).  The four LangGraph workflows
(ReAct, Rigid, Multi-Phase, Recursive-Refine) are shallowly embedded as
pure Lean functions: each graph node becomes a function from state to
state (the node's partial update already merged, shallow-merge
semantics), language-model calls become opaque oracle arguments, and the
graph interpreter becomes a fuel-bounded small-step executor (the fuel
mirrors LangGraph's recursion limit of 25).  Timestamps and the
diagnostic `logs` channel are presentation-only and are omitted from the
state; `step_history` is kept in full (node name and action).
-/

/-! ### Python string primitives

`str.lower` (ASCII), `str.split()` (split on whitespace, dropping empty
pieces), substring containment (`a in b`), and the `repr` of a list of
strings used by f-string formatting of `matches`. -/

/-- `s.lower()` on the character list of a string (ASCII case mapping,
which is what every name and query in the repository uses). -/
def lowerChars (s : String) : List Char :=
  s.toList.map Char.toLower

/-- Accumulator-based worker for Python `str.split()`: `acc` holds the
current (reversed) in-progress token. -/
def splitWSAux : List Char → List Char → List (List Char)
  | [], acc => if acc.isEmpty then [] else [acc.reverse]
  | c :: rest, acc =>
      if c.isWhitespace then
        if acc.isEmpty then splitWSAux rest []
        else acc.reverse :: splitWSAux rest []
      else splitWSAux rest (c :: acc)

/-- Python `str.split()` with no argument: split on runs of whitespace,
never producing an empty token. -/
def splitWS (l : List Char) : List (List Char) :=
  splitWSAux l []

/-- Does `hay` start with `lead`? (helper for substring containment). -/
def leadsWith : List Char → List Char → Bool
  | [], _ => true
  | _ :: _, [] => false
  | a :: as, b :: bs => a == b && leadsWith as bs

/-- Python `needle in hay` for strings, on character lists. -/
def occursIn (needle : List Char) : List Char → Bool
  | [] => needle.isEmpty
  | c :: rest => leadsWith needle (c :: rest) || occursIn needle rest

/-- Python `repr` of a list of strings, as produced by
`f"AMBIGUOUS: {matches}"` (elements quoted with `'`, separated by `, `,
wrapped in brackets). -/
def pyListRepr (xs : List String) : String :=
  "[" ++ String.intercalate ", " (xs.map (fun s => "\x27" ++ s ++ "\x27")) ++ "]"

/-- Python truthiness of an optional string: `None` and `""` are falsy. -/
def truthyOptStr : Option String → Bool
  | none => false
  | some s => !s.isEmpty

/-! ### Shared record types -/

/-- One `step_history` entry: the node that executed and its recorded
action (timestamps omitted). -/
structure StepRec where
  node : String
  action : String
deriving DecidableEq, Repr

/-- Number of `step_history` entries recorded by node `n`. -/
def countNode (n : String) (h : List StepRec) : Nat :=
  (h.filter (fun r => r.node == n)).length

/-- A row of the contact directory (`_get_contacts_db` value part). -/
structure ContactInfo where
  email : String
  department : String
  role : String
deriving DecidableEq, Repr

/-- The contact directory: insertion-ordered `name ↦ info` mapping. -/
abbrev ContactsDb := List (String × ContactInfo)

/-- `contacts_db[name]` (total; directories never repeat names and the
lookup is only reached for a name drawn from the directory). -/
def lookupInfo (db : ContactsDb) (name : String) : ContactInfo :=
  match db.find? (fun p => p.1 == name) with
  | some p => p.2
  | none => ⟨"", "", ""⟩

/-- The resolved-contact payload `{"name": name, **contacts_db[name]}`. -/
structure ResolvedContact where
  name : String
  email : String
  department : String
  role : String
deriving DecidableEq, Repr

/-! ### ReAct workflow (`react_agent.py`) -/

/-- `ReactAgentState` (logs and timestamps omitted; `user_name` is kept
as a plain string, `state["user_name"] or ""` in the source). -/
structure ReactState where
  flag : Option String
  counter : Nat
  user_name : String
  details : Option ResolvedContact
  error : Option String
  message : String
  email_content : Option String
  step_history : List StepRec
deriving DecidableEq, Repr

/-- `ReactAgentService.MAX_RETRIES`. -/
def MAX_RETRIES : Nat := 5

/-- The exact-token matcher of `_react_node`: a directory name matches
when every lower-cased whitespace token of the query equals some
lower-cased whitespace token of the name. -/
def tokenMatch (query name : String) : Bool :=
  (splitWS (lowerChars query)).all (fun term =>
    (splitWS (lowerChars name)).any (fun part => term == part))

/-- `matches` as computed by `_react_node` (directory order preserved). -/
def reactMatches (db : ContactsDb) (user_name : String) : List String :=
  (db.map Prod.fst).filter (fun name => tokenMatch user_name name)

/-- `_react_node`: max-retries guard, then the contact lookup with its
three outcomes (single match / ambiguous / not found). -/
def reactNode (db : ContactsDb) (s : ReactState) : ReactState :=
  if MAX_RETRIES ≤ s.counter then
    { s with
      error := some ("MAX_RETRIES_EXCEEDED after " ++ Nat.repr s.counter ++ " attempts"),
      flag := some "END",
      step_history := s.step_history ++ [⟨"react_node", "max_retries_exceeded"⟩] }
  else
    let ms := reactMatches db s.user_name
    let hist := s.step_history ++ [⟨"react_node", "contact_lookup"⟩]
    if ms.length = 1 then
      let name := ms.headI
      { s with
        details := some ⟨name, (lookupInfo db name).email,
                         (lookupInfo db name).department, (lookupInfo db name).role⟩,
        flag := some "approve",
        step_history := hist }
    else if 1 < ms.length then
      { s with
        error := some ("AMBIGUOUS: " ++ pyListRepr ms),
        flag := some "fail",
        step_history := hist }
    else
      { s with
        error := some "CONTACT_NOT_FOUND",
        flag := some "END",
        step_history := hist }

/-- `_contact_node`: increments the counter and overwrites `user_name`
with the language model's resolution, modelled as an oracle `llm` from
the attempt number to the resolved name. -/
def contactNode (llm : Nat → String) (s : ReactState) : ReactState :=
  let counter := s.counter + 1
  { s with
    user_name := llm counter,
    counter := counter,
    step_history := s.step_history ++ [⟨"contact_node", "llm_disambiguation"⟩] }

/-- `_email_node` of the ReAct service: stores the model-drafted email
text (oracle `gen`). -/
def reactEmailNode (gen : String) (s : ReactState) : ReactState :=
  { s with
    email_content := some gen,
    step_history := s.step_history ++ [⟨"email_node", "email_generated"⟩] }

/-- The nodes of the ReAct graph plus the terminal marker. -/
inductive RNode
  | react
  | contact
  | email
  | terminal
deriving DecidableEq, Repr

/-- The conditional-edge table at `react_node`:
`{approve ↦ email_node, fail ↦ contact_node, END ↦ END}`. -/
def reactRoute (flag : Option String) : RNode :=
  match flag with
  | some "approve" => RNode.email
  | some "fail" => RNode.contact
  | _ => RNode.terminal

/-- Fuel-bounded interpreter for the ReAct graph (fuel 25 mirrors the
compiled graph's recursion limit; every run settled below needs far
less). -/
def reactExec (db : ContactsDb) (llm : Nat → String) (gen : String) :
    Nat → RNode → ReactState → ReactState
  | 0, _, s => s
  | _ + 1, RNode.terminal, s => s
  | fuel + 1, RNode.react, s =>
      let s' := reactNode db s
      reactExec db llm gen fuel (reactRoute s'.flag) s'
  | fuel + 1, RNode.contact, s =>
      reactExec db llm gen fuel RNode.react (contactNode llm s)
  | fuel + 1, RNode.email, s =>
      reactExec db llm gen fuel RNode.terminal (reactEmailNode gen s)

/-- The run result assembled by `ReactAgentService.run` (and, for the
other services, the analogous dictionaries). -/
structure RunResult where
  status : String
  email_content : Option String
  contact : Option ResolvedContact
  error : Option String
  step_history : List StepRec
  retry_count : Nat
deriving DecidableEq, Repr

/-- The initial `ReactAgentState` built by `run`. -/
def reactInit (message user_name : String) : ReactState :=
  { flag := none, counter := 0, user_name := user_name, details := none,
    error := none, message := message, email_content := none, step_history := [] }

/-- `ReactAgentService.run`: execute the graph from `react_node` and
package the result (`status` is `completed` exactly when the final
`email_content` is truthy). -/
def reactRun (db : ContactsDb) (llm : Nat → String) (gen : String)
    (message user_name : String) : RunResult :=
  let out := reactExec db llm gen 25 RNode.react (reactInit message user_name)
  { status := if truthyOptStr out.email_content then "completed" else "failed",
    email_content := out.email_content,
    contact := out.details,
    error := out.error,
    step_history := out.step_history,
    retry_count := out.counter }

/-! Concrete two-entry directory used by the spec's documented edge
case. -/

/-- Directory `{"John Smith": e1, "John Doe": e2}`. -/
def dbJohn : ContactsDb :=
  [("John Smith", ⟨"john.smith@corp.example", "Sales", "Manager"⟩),
   ("John Doe", ⟨"john.doe@corp.example", "IT", "Engineer"⟩)]

example : reactMatches dbJohn "John" = ["John Smith", "John Doe"] := by decide

example : tokenMatch "John Smith" "John Smith" = true := by decide
example : tokenMatch "Joh" "John Smith" = false := by decide
example : occursIn (lowerChars "Joh") (lowerChars "John Smith") = true := by decide

/-! ### Basic lemmas about the executor and step counting -/

theorem reactExec_terminal (db : ContactsDb) (llm : Nat → String) (gen : String) :
    ∀ fuel s, reactExec db llm gen fuel RNode.terminal s = s
  | 0, _ => rfl
  | _ + 1, _ => rfl

theorem countNode_append (n : String) (h : List StepRec) (r : StepRec) :
    countNode n (h ++ [r]) = countNode n h + (if r.node == n then 1 else 0) := by
  cases hb : r.node == n <;>
    simp [countNode, List.filter_append, List.filter, hb]

theorem reactNode_counter (db : ContactsDb) (s : ReactState) :
    (reactNode db s).counter = s.counter := by
  simp only [reactNode]
  split_ifs <;> rfl

theorem reactRoute_END : reactRoute (some "END") = RNode.terminal := rfl

theorem reactRoute_fail : reactRoute (some "fail") = RNode.contact := rfl

theorem reactRoute_approve : reactRoute (some "approve") = RNode.email := rfl

/-! ### C1: the documented "John" edge case -/

/-- C1 counterexample: with directory `{"John Smith", "John Doe"}` and
query `"John"`, the matcher yields TWO exact-token matches (the token
`john` equals the first token of each name), so `react_node` records the
ambiguous outcome, not the claimed zero-match `CONTACT_NOT_FOUND`/`END`
outcome. -/
theorem react_john_query_counterexample :
    (reactMatches dbJohn "John").length = 2 ∧
    (reactNode dbJohn (reactInit "email John please" "John")).error ≠
      some "CONTACT_NOT_FOUND" ∧
    (reactNode dbJohn (reactInit "email John please" "John")).flag ≠ some "END" := by
  decide

/-- C1 (amended): with directory `{"John Smith", "John Doe"}` and query
`"John"`, `react_node` finds exactly the two matches `John Smith` and
`John Doe`, and emits error `AMBIGUOUS: ['John Smith', 'John Doe']`
with flag `fail`, routing to `contact_node`. -/
theorem react_john_query_ambiguous :
    reactMatches dbJohn "John" = ["John Smith", "John Doe"] ∧
    (reactNode dbJohn (reactInit "email John please" "John")).error =
      some ("AMBIGUOUS: " ++ pyListRepr ["John Smith", "John Doe"]) ∧
    (reactNode dbJohn (reactInit "email John please" "John")).flag = some "fail" ∧
    reactRoute (reactNode dbJohn (reactInit "email John please" "John")).flag =
      RNode.contact := by
  decide

/-! ### C4: the exact-token matcher and the three outcomes -/

/-- C4: below the retry bound, `react_node` selects exactly the
directory entries whose lower-cased whitespace tokens contain every
lower-cased whitespace token of the query (exact token equality), and
the three match counts produce the documented error/flag/routing
outcomes. -/
theorem react_node_matcher (db : ContactsDb) (s : ReactState)
    (h : s.counter < MAX_RETRIES) :
    (∀ name, name ∈ reactMatches db s.user_name ↔
      (name ∈ db.map Prod.fst ∧
        ∀ t ∈ splitWS (lowerChars s.user_name),
          ∃ p ∈ splitWS (lowerChars name), t = p)) ∧
    ((reactMatches db s.user_name).length = 0 →
      (reactNode db s).error = some "CONTACT_NOT_FOUND" ∧
      (reactNode db s).flag = some "END" ∧
      reactRoute (reactNode db s).flag = RNode.terminal) ∧
    ((reactMatches db s.user_name).length = 1 →
      (reactNode db s).details =
        some ⟨(reactMatches db s.user_name).headI,
              (lookupInfo db (reactMatches db s.user_name).headI).email,
              (lookupInfo db (reactMatches db s.user_name).headI).department,
              (lookupInfo db (reactMatches db s.user_name).headI).role⟩ ∧
      (reactNode db s).flag = some "approve" ∧
      reactRoute (reactNode db s).flag = RNode.email) ∧
    (1 < (reactMatches db s.user_name).length →
      (reactNode db s).error =
        some ("AMBIGUOUS: " ++ pyListRepr (reactMatches db s.user_name)) ∧
      (reactNode db s).flag = some "fail" ∧
      reactRoute (reactNode db s).flag = RNode.contact) := by
  have hmax : ¬ MAX_RETRIES ≤ s.counter := by omega
  refine ⟨?_, ?_, ?_, ?_⟩
  · intro name
    simp [reactMatches, tokenMatch, List.mem_filter, List.all_eq_true,
      List.any_eq_true, beq_iff_eq]
  · intro h0
    simp only [reactNode, if_neg hmax]
    rw [if_neg (by omega), if_neg (by omega)]
    exact ⟨rfl, rfl, rfl⟩
  · intro h1
    simp only [reactNode, if_neg hmax]
    rw [if_pos h1]
    exact ⟨rfl, rfl, rfl⟩
  · intro h2
    simp only [reactNode, if_neg hmax]
    rw [if_neg (by omega), if_pos h2]
    exact ⟨rfl, rfl, rfl⟩

/-- C4 witness: at `dbJohn`, query "John Smith" and a fresh state, the
matcher admits exactly one entry and routes to `email_node`. -/
theorem react_node_matcher_check :
    (reactMatches dbJohn "John Smith").length = 1 ∧
    (reactNode dbJohn (reactInit "m" "John Smith")).flag = some "approve" := by
  have h := react_node_matcher dbJohn (reactInit "m" "John Smith") (by decide)
  exact ⟨by decide, (h.2.2.1 (by decide)).2.1⟩

/-! ### C2: five and only five ambiguity-resolution attempts -/

/-- Loop invariant for a run whose every lookup stays ambiguous: with
`k` retries left (`counter + k = 5`), enough fuel reaches the
max-retries outcome after exactly `k` further `contact_node` visits. -/
theorem react_amb_loop (db : ContactsDb) (llm : Nat → String) (gen : String)
    (hl : ∀ n, 2 ≤ (reactMatches db (llm n)).length) :
    ∀ k (s : ReactState) (fuel : Nat),
      s.counter + k = 5 →
      2 ≤ (reactMatches db s.user_name).length →
      2 * k + 1 ≤ fuel →
      (reactExec db llm gen fuel RNode.react s).counter = 5 ∧
      (reactExec db llm gen fuel RNode.react s).flag = some "END" ∧
      (reactExec db llm gen fuel RNode.react s).error =
        some "MAX_RETRIES_EXCEEDED after 5 attempts" ∧
      countNode "contact_node" (reactExec db llm gen fuel RNode.react s).step_history =
        countNode "contact_node" s.step_history + k ∧
      (reactExec db llm gen fuel RNode.react s).email_content = s.email_content := by
  intro k
  induction k with
  | zero =>
    intro s fuel hc hm hf
    obtain ⟨f, rfl⟩ : ∃ f, fuel = f + 1 := ⟨fuel - 1, by omega⟩
    have hc5 : s.counter = 5 := by omega
    have hmax : MAX_RETRIES ≤ s.counter := by unfold MAX_RETRIES; omega
    have hnode : reactNode db s =
        { s with
          error := some ("MAX_RETRIES_EXCEEDED after " ++ Nat.repr s.counter ++ " attempts"),
          flag := some "END",
          step_history := s.step_history ++ [⟨"react_node", "max_retries_exceeded"⟩] } := by
      simp only [reactNode, if_pos hmax]
    simp only [reactExec, hnode, reactRoute_END]
    rw [reactExec_terminal]
    refine ⟨hc5, rfl, ?_, ?_, rfl⟩
    · show some ("MAX_RETRIES_EXCEEDED after " ++ Nat.repr s.counter ++ " attempts") =
        some "MAX_RETRIES_EXCEEDED after 5 attempts"
      rw [hc5]
      decide
    · show countNode "contact_node"
          (s.step_history ++ [⟨"react_node", "max_retries_exceeded"⟩]) =
        countNode "contact_node" s.step_history + 0
      rw [countNode_append]
      simp
  | succ k ih =>
    intro s fuel hc hm hf
    obtain ⟨f, rfl⟩ : ∃ f, fuel = f + 1 := ⟨fuel - 1, by omega⟩
    obtain ⟨f', rfl⟩ : ∃ f', f = f' + 1 := ⟨f - 1, by omega⟩
    have hmax : ¬ MAX_RETRIES ≤ s.counter := by unfold MAX_RETRIES; omega
    have hnode : reactNode db s =
        { s with
          error := some ("AMBIGUOUS: " ++ pyListRepr (reactMatches db s.user_name)),
          flag := some "fail",
          step_history := s.step_history ++ [⟨"react_node", "contact_lookup"⟩] } := by
      simp only [reactNode, if_neg hmax]
      rw [if_neg (by omega), if_pos (by omega)]
    simp only [reactExec, hnode, reactRoute_fail, contactNode]
    have hres := ih
      ({ s with
          error := some ("AMBIGUOUS: " ++ pyListRepr (reactMatches db s.user_name)),
          flag := some "fail",
          user_name := llm (s.counter + 1),
          counter := s.counter + 1,
          step_history := (s.step_history ++ [⟨"react_node", "contact_lookup"⟩]) ++
            [⟨"contact_node", "llm_disambiguation"⟩] })
      f' (by simp; omega) (hl (s.counter + 1)) (by omega)
    refine ⟨hres.1, hres.2.1, hres.2.2.1, ?_, hres.2.2.2.2⟩
    rw [hres.2.2.2.1, countNode_append, countNode_append]
    simp
    omega

/-- C2: if the initial query and every LLM-resolved name stay ambiguous
(2+ matches) on every iteration, the ReAct run terminates with error
`MAX_RETRIES_EXCEEDED`, flag `END`, status `failed`, and exactly five
`contact_node` visits — never a sixth. -/
theorem react_max_retries (db : ContactsDb) (llm : Nat → String) (gen : String)
    (msg u0 : String)
    (h0 : 2 ≤ (reactMatches db u0).length)
    (hl : ∀ n, 2 ≤ (reactMatches db (llm n)).length) :
    (reactRun db llm gen msg u0).error =
      some "MAX_RETRIES_EXCEEDED after 5 attempts" ∧
    (reactRun db llm gen msg u0).retry_count = 5 ∧
    countNode "contact_node" (reactRun db llm gen msg u0).step_history = 5 ∧
    (reactRun db llm gen msg u0).status = "failed" := by
  have h := react_amb_loop db llm gen hl 5 (reactInit msg u0) 25 (by rfl) h0 (by omega)
  simp only [reactRun]
  refine ⟨h.2.2.1, h.1, ?_, ?_⟩
  · rw [h.2.2.2.1]
    rfl
  · rw [h.2.2.2.2]
    rfl

/-- C2 witness: directory `dbJohn`, initial query "John", and an LLM
that always answers "John" keep every lookup ambiguous; the run stops at
exactly five retries. -/
theorem react_max_retries_check :
    (reactRun dbJohn (fun _ => "John") "draft" "email John" "John").error =
      some "MAX_RETRIES_EXCEEDED after 5 attempts" ∧
    countNode "contact_node"
      (reactRun dbJohn (fun _ => "John") "draft" "email John" "John").step_history = 5 := by
  have hl : ∀ n : Nat, 2 ≤ (reactMatches dbJohn ((fun _ : Nat => "John") n)).length := by
    intro n
    show 2 ≤ (reactMatches dbJohn "John").length
    decide
  have h := react_max_retries dbJohn (fun _ => "John") "draft" "email John" "John"
    (by decide) hl
  exact ⟨h.1, h.2.2.1⟩

/-! ### C10: the retry counter never exceeds the bound -/

/-- Counter invariant for the executor: starting at any node with a
counter within the bound (strictly below it when starting at
`contact_node`, which is how the graph ever enters that node), the
counter stays at most `MAX_RETRIES`. -/
theorem react_counter_le (db : ContactsDb) (llm : Nat → String) (gen : String) :
    ∀ fuel (node : RNode) (s : ReactState),
      (node = RNode.contact → s.counter < MAX_RETRIES) →
      s.counter ≤ MAX_RETRIES →
      (reactExec db llm gen fuel node s).counter ≤ MAX_RETRIES := by
  intro fuel
  induction fuel with
  | zero =>
    intro node s _ h5
    simpa only [reactExec] using h5
  | succ f ih =>
    intro node s hc h5
    cases node with
    | terminal => simpa only [reactExec] using h5
    | react =>
      simp only [reactExec]
      apply ih
      · intro hr
        rw [reactNode_counter]
        by_contra hge
        push_neg at hge
        have hflag : (reactNode db s).flag = some "END" := by
          simp only [reactNode, if_pos hge]
        rw [hflag] at hr
        exact absurd hr (by decide)
      · rw [reactNode_counter]
        exact h5
    | contact =>
      have hlt := hc rfl
      simp only [reactExec]
      apply ih
      · intro hcon
        exact absurd hcon (by decide)
      · simp only [contactNode]
        omega
    | email =>
      simp only [reactExec]
      apply ih
      · intro hcon
        exact absurd hcon (by decide)
      · simpa only [reactEmailNode] using h5

/-- C10: every state reachable during a ReAct run (the executor stopped
after any number of steps) has counter at most 5, and the reported
`retry_count` of every run is at most 5. -/
theorem react_retry_bound (db : ContactsDb) (llm : Nat → String) (gen : String)
    (msg u0 : String) :
    (∀ fuel, (reactExec db llm gen fuel RNode.react (reactInit msg u0)).counter ≤ 5) ∧
    (reactRun db llm gen msg u0).retry_count ≤ 5 := by
  have h : ∀ fuel,
      (reactExec db llm gen fuel RNode.react (reactInit msg u0)).counter ≤ MAX_RETRIES := by
    intro fuel
    exact react_counter_le db llm gen fuel RNode.react (reactInit msg u0)
      (fun hcon => absurd hcon (by decide)) (by simp [reactInit, MAX_RETRIES])
  exact ⟨h, h 25⟩

/-! ### Rigid workflow (`rigid_agent.py`) -/

/-- The contact-lookup result dictionary of `_contacts_node`: either
`{"success": True, "contact": …}` or `{"success": False, "error": …}`. -/
inductive RigidResult
  | ok (contact : ResolvedContact)
  | err (msg : String)
deriving DecidableEq, Repr

/-- `result.get("success")` (the `{}`-initialised field is falsy, which
the `none` case of `contact_result` covers). -/
def RigidResult.success : RigidResult → Bool
  | .ok _ => true
  | .err _ => false

/-- `RigidAgentState` (logs and timestamps omitted; the unused `contact`
field is dropped). -/
structure RigidState where
  user : String
  steps : List (String × String)
  contact_result : Option RigidResult
  email_result : Option String
  step_history : List StepRec
deriving DecidableEq, Repr

/-- `_plan_node`: records the fixed two-step plan. -/
def planNode (s : RigidState) : RigidState :=
  { s with
    steps := [("contacts", s.user), ("email_send", s.user)],
    step_history := s.step_history ++ [⟨"plan_node", "plan_created"⟩] }

/-- The substring matcher of `_contacts_node`: a directory name matches
when the lower-cased query occurs inside the lower-cased name. -/
def rigidMatches (db : ContactsDb) (q : String) : List String :=
  (db.map Prod.fst).filter (fun name => occursIn (lowerChars q) (lowerChars name))

/-- `_contacts_node`: single substring lookup, no retry logic. -/
def contactsNode (db : ContactsDb) (s : RigidState) : RigidState :=
  let step_arg := s.steps.headI.2
  let ms := rigidMatches db step_arg
  let result : RigidResult :=
    if ms.length = 1 then
      RigidResult.ok ⟨ms.headI, (lookupInfo db ms.headI).email,
        (lookupInfo db ms.headI).department, (lookupInfo db ms.headI).role⟩
    else if 1 < ms.length then
      RigidResult.err ("AMBIGUOUS: " ++ pyListRepr ms)
    else
      RigidResult.err "CONTACT_NOT_FOUND"
  { s with
    contact_result := some result,
    step_history := s.step_history ++ [⟨"contacts_node", "contact_lookup"⟩] }

/-- `_email_node` of the Rigid service: propagates a lookup failure as a
`Cannot send email: …` message, otherwise sends the fixed-template
email. -/
def rigidEmailNode (s : RigidState) : RigidState :=
  match s.contact_result with
  | some (RigidResult.ok c) =>
      { s with
        email_result := some ("Email sent to " ++ c.name ++ " (" ++ c.email ++
          ") | subject=\x27Budget Meeting\x27"),
        step_history := s.step_history ++ [⟨"email_node", "email_sent"⟩] }
  | some (RigidResult.err e) =>
      { s with
        email_result := some ("Cannot send email: " ++ e),
        step_history := s.step_history ++ [⟨"email_node", "email_failed"⟩] }
  | none =>
      { s with
        email_result := some "Cannot send email: None",
        step_history := s.step_history ++ [⟨"email_node", "email_failed"⟩] }

/-- The initial `RigidAgentState` built by `run` (`user_name or message`). -/
def rigidInit (message user_name : String) : RigidState :=
  { user := if user_name == "" then message else user_name,
    steps := [], contact_result := none, email_result := none, step_history := [] }

/-- `RigidAgentService.run`: the strictly sequential graph
`planner → contacts → email`, then the result dictionary (`completed`
exactly when the final message is non-empty and contains
`"Email sent"`). -/
def rigidRun (db : ContactsDb) (message user_name : String) : RunResult :=
  let out := rigidEmailNode (contactsNode db (planNode (rigidInit message user_name)))
  let emailResult := out.email_result.getD ""
  let isSuccess := !emailResult.isEmpty && occursIn "Email sent".toList emailResult.toList
  { status := if isSuccess then "completed" else "failed",
    email_content := out.email_result,
    contact := match out.contact_result with
      | some (RigidResult.ok c) => some c
      | _ => none,
    error := if isSuccess then none else some emailResult,
    step_history := out.step_history,
    retry_count := 0 }

example : (rigidRun dbJohn "budget" "John Smith").status = "completed" := by decide
example : (rigidRun dbJohn "budget" "Zed").status = "failed" := by decide

/-! ### C3: business errors and run status -/

/-- C3 counterexample: a ReAct run that first hits `AMBIGUOUS` (query
"John"), is then resolved by the LLM to "John Smith", and drafts an
email, reaches terminal with the stale `AMBIGUOUS` error still
populated yet reports status `completed` — so a populated error field
does not imply status `failed`. -/
theorem react_stale_error_counterexample :
    (reactRun dbJohn (fun _ => "John Smith") "Dear John, about the budget…"
      "email John about the budget" "John").status = "completed" ∧
    (reactRun dbJohn (fun _ => "John Smith") "Dear John, about the budget…"
      "email John about the budget" "John").error =
      some ("AMBIGUOUS: " ++ pyListRepr ["John Smith", "John Doe"]) := by
  decide

/-- `rigidEmailNode` always stores a message. -/
theorem rigidEmailNode_some (s : RigidState) :
    ∃ t, (rigidEmailNode s).email_result = some t := by
  cases hc : s.contact_result with
  | none => simp [rigidEmailNode, hc]
  | some r =>
    cases r with
    | ok c => simp [rigidEmailNode, hc]
    | err e => simp [rigidEmailNode, hc]

/-- C3 (amended): a run that reaches terminal with a populated error
field and no drafted email has status `failed` with the recorded error
preserved verbatim (ReAct), and a Rigid run whose result carries an
error has status `failed` with the error being exactly the email node's
recorded failure message; a ReAct run that recovers from a transient
error, however, may report `completed` with the stale error populated. -/
theorem error_terminal_failed :
    (∀ (db : ContactsDb) (llm : Nat → String) (gen msg u0 e : String),
      truthyOptStr (reactRun db llm gen msg u0).email_content = false →
      (reactRun db llm gen msg u0).error = some e →
      (reactRun db llm gen msg u0).status = "failed" ∧
      (reactRun db llm gen msg u0).error = some e) ∧
    (∀ (db : ContactsDb) (msg u0 e : String),
      (rigidRun db msg u0).error = some e →
      (rigidRun db msg u0).status = "failed" ∧
      (rigidRun db msg u0).email_content = some e) := by
  constructor
  · intro db llm gen msg u0 e h1 h2
    refine ⟨?_, h2⟩
    simp only [reactRun] at h1 ⊢
    simp [h1]
  · intro db msg u0 e h
    obtain ⟨t, ht⟩ := rigidEmailNode_some (contactsNode db (planNode (rigidInit msg u0)))
    simp only [rigidRun, ht, Option.getD_some] at h ⊢
    by_cases hS : (!(t.isEmpty) && occursIn "Email sent".toList t.toList) = true
    · rw [if_pos hS] at h
      cases h
    · rw [if_neg hS] at h ⊢
      simp at h
      simp [h]

/-- C3 witness: concrete failed runs of both workflows. -/
theorem error_terminal_failed_check :
    (reactRun dbJohn (fun _ => "x") "g" "m" "Zed").status = "failed" ∧
    (rigidRun dbJohn "m" "Zed").status = "failed" := by
  refine ⟨(error_terminal_failed.1 dbJohn (fun _ => "x") "g" "m" "Zed"
      "CONTACT_NOT_FOUND" (by decide) (by decide)).1,
    (error_terminal_failed.2 dbJohn "m" "Zed"
      "Cannot send email: CONTACT_NOT_FOUND" (by decide)).1⟩

/-! ### C5: Rigid run with zero matches -/

/-- C5: when the directory yields zero substring matches for the query,
the contacts node records `success=false` with `CONTACT_NOT_FOUND`, the
email node still executes and stores the failure message, the run is
`failed`, and `step_history` holds the three nodes in plan/contacts/email
order. -/
theorem rigid_zero_match (db : ContactsDb) (msg u0 : String)
    (h : rigidMatches db (if u0 == "" then msg else u0) = []) :
    (contactsNode db (planNode (rigidInit msg u0))).contact_result =
      some (RigidResult.err "CONTACT_NOT_FOUND") ∧
    ((contactsNode db (planNode (rigidInit msg u0))).contact_result.map
      RigidResult.success) = some false ∧
    (rigidRun db msg u0).email_content = some "Cannot send email: CONTACT_NOT_FOUND" ∧
    (rigidRun db msg u0).status = "failed" ∧
    (rigidRun db msg u0).step_history =
      [⟨"plan_node", "plan_created"⟩, ⟨"contacts_node", "contact_lookup"⟩,
       ⟨"email_node", "email_failed"⟩] := by
  have hcn : contactsNode db (planNode (rigidInit msg u0)) =
      { user := if u0 == "" then msg else u0,
        steps := [("contacts", if u0 == "" then msg else u0),
                  ("email_send", if u0 == "" then msg else u0)],
        contact_result := some (RigidResult.err "CONTACT_NOT_FOUND"),
        email_result := none,
        step_history := [⟨"plan_node", "plan_created"⟩,
                         ⟨"contacts_node", "contact_lookup"⟩] } := by
    have h' : rigidMatches db (if u0 = "" then msg else u0) = [] := by
      simpa using h
    simp [contactsNode, planNode, rigidInit, h']
  have hem : rigidEmailNode (contactsNode db (planNode (rigidInit msg u0))) =
      { user := if u0 == "" then msg else u0,
        steps := [("contacts", if u0 == "" then msg else u0),
                  ("email_send", if u0 == "" then msg else u0)],
        contact_result := some (RigidResult.err "CONTACT_NOT_FOUND"),
        email_result := some ("Cannot send email: " ++ "CONTACT_NOT_FOUND"),
        step_history := [⟨"plan_node", "plan_created"⟩,
                         ⟨"contacts_node", "contact_lookup"⟩,
                         ⟨"email_node", "email_failed"⟩] } := by
    rw [hcn]
    rfl
  refine ⟨by rw [hcn], by rw [hcn]; rfl, ?_, ?_, ?_⟩ <;>
    simp only [rigidRun, hem] <;> decide

/-- C5 witness: directory `dbJohn` has no substring match for "Zed". -/
theorem rigid_zero_match_check :
    (rigidRun dbJohn "budget meeting" "Zed").status = "failed" ∧
    (rigidRun dbJohn "budget meeting" "Zed").step_history =
      [⟨"plan_node", "plan_created"⟩, ⟨"contacts_node", "contact_lookup"⟩,
       ⟨"email_node", "email_failed"⟩] := by
  have h := rigid_zero_match dbJohn "budget meeting" "Zed" (by decide)
  exact ⟨h.2.2.2.1, h.2.2.2.2⟩

/-! ### C6: the Rigid matcher is strictly looser than the ReAct matcher -/

theorem leadsWith_refl_append : ∀ t rest : List Char, leadsWith t (t ++ rest) = true
  | [], _ => rfl
  | c :: cs, rest => by
    simp [leadsWith, leadsWith_refl_append cs rest]

theorem occursIn_append (t l2 : List Char) : occursIn t (t ++ l2) = true := by
  cases t with
  | nil => cases l2 <;> simp [occursIn, leadsWith]
  | cons c cs =>
    simp only [occursIn, Bool.or_eq_true]
    exact Or.inl (leadsWith_refl_append (c :: cs) l2)

theorem occursIn_of_parts (t l1 l2 : List Char) : occursIn t (l1 ++ (t ++ l2)) = true := by
  induction l1 with
  | nil => simpa using occursIn_append t l2
  | cons c cs ih => simp [occursIn, ih]

/-- Every token produced by the splitter is a contiguous segment of the
input (stated for the accumulator worker). -/
theorem splitWSAux_parts : ∀ (l acc t : List Char), t ∈ splitWSAux l acc →
    ∃ l1 l2, acc.reverse ++ l = l1 ++ (t ++ l2) := by
  intro l
  induction l with
  | nil =>
    intro acc t ht
    by_cases ha : acc.isEmpty
    · simp [splitWSAux, ha] at ht
    · simp [splitWSAux, ha] at ht
      exact ⟨[], [], by simp [ht]⟩
  | cons c cs ih =>
    intro acc t ht
    by_cases hw : c.isWhitespace
    · by_cases ha : acc.isEmpty
      · have hacc : acc = [] := by simpa [List.isEmpty_iff] using ha
        simp only [splitWSAux, if_pos hw, if_pos ha] at ht
        obtain ⟨l1, l2, he⟩ := ih [] t ht
        simp only [List.reverse_nil, List.nil_append] at he
        exact ⟨c :: l1, l2, by simp [hacc, he]⟩
      · simp only [splitWSAux, if_pos hw, if_neg ha, List.mem_cons] at ht
        rcases ht with rfl | ht
        · exact ⟨[], c :: cs, by simp⟩
        · obtain ⟨l1, l2, he⟩ := ih [] t ht
          simp only [List.reverse_nil, List.nil_append] at he
          exact ⟨acc.reverse ++ c :: l1, l2, by simp [he]⟩
    · simp only [splitWSAux, if_neg hw] at ht
      obtain ⟨l1, l2, he⟩ := ih (c :: acc) t ht
      refine ⟨l1, l2, ?_⟩
      simpa using he

/-- Every token of `splitWS l` occurs in `l` as a substring. -/
theorem occursIn_of_mem_splitWS (t l : List Char) (h : t ∈ splitWS l) :
    occursIn t l = true := by
  obtain ⟨l1, l2, he⟩ := splitWSAux_parts l [] t h
  simp only [List.reverse_nil, List.nil_append] at he
  rw [he]
  exact occursIn_of_parts t l1 l2

/-- C6: the Rigid contacts node selects exactly the entries whose
lower-cased name contains the lower-cased query as a substring; for a
single-token query this is strictly looser than ReAct's exact-token
matcher — every token-match is a substring-match (so every ReAct match
is a Rigid match), but not conversely ("Joh" substring-matches
"John Smith" while token-matching rejects it). -/
theorem rigid_matcher_looser :
    (∀ db q, rigidMatches db q =
      (db.map Prod.fst).filter (fun name => occursIn (lowerChars q) (lowerChars name))) ∧
    (∀ q name : String, splitWS (lowerChars q) = [lowerChars q] →
      tokenMatch q name = true →
      occursIn (lowerChars q) (lowerChars name) = true) ∧
    (∀ (db : ContactsDb) (q name : String), splitWS (lowerChars q) = [lowerChars q] →
      name ∈ reactMatches db q → name ∈ rigidMatches db q) ∧
    (occursIn (lowerChars "Joh") (lowerChars "John Smith") = true ∧
      tokenMatch "Joh" "John Smith" = false) := by
  have key : ∀ q name : String, splitWS (lowerChars q) = [lowerChars q] →
      tokenMatch q name = true →
      occursIn (lowerChars q) (lowerChars name) = true := by
    intro q name hq hm
    unfold tokenMatch at hm
    rw [hq] at hm
    simp only [List.all_cons, List.all_nil, Bool.and_true, List.any_eq_true,
      beq_iff_eq] at hm
    obtain ⟨p, hp, he⟩ := hm
    exact occursIn_of_mem_splitWS _ _ (he ▸ hp)
  refine ⟨fun db q => rfl, key, ?_, by decide, by decide⟩
  intro db q name hq hmem
  rw [reactMatches, List.mem_filter] at hmem
  rw [rigidMatches, List.mem_filter]
  exact ⟨hmem.1, key q name hq hmem.2⟩

/-- C6 witness: the single-token query "John" token-matches
"John Smith", hence also substring-matches it. -/
theorem rigid_matcher_looser_check :
    occursIn (lowerChars "John") (lowerChars "John Smith") = true :=
  rigid_matcher_looser.2.1 "John" "John Smith" (by decide) (by decide)

/-! ### Multi-Phase workflow (`multi_agent.py`) -/

/-- One inter-agent (A2A) message record (timestamps omitted). -/
structure A2AMsg where
  sender : String
  receiver : String
  content : String
deriving DecidableEq, Repr

/-- `MultiAgentState` (logs and timestamps omitted). -/
structure MultiState where
  query : String
  phase : String
  research_result : Option String
  reasoning_result : Option String
  action_result : Option String
  final_answer : Option String
  agent_messages : List A2AMsg
  step_history : List StepRec
  iteration : Nat
  max_iterations : Nat
  should_continue : Bool
deriving DecidableEq, Repr

/-- `_supervisor_node`: picks the first phase whose result field is
still falsy, in the fixed order research / reasoning / action, else
`synthesize`; records an A2A message and a step record. -/
def supervisorNode (s : MultiState) : MultiState :=
  let next :=
    if !truthyOptStr s.research_result then "research"
    else if !truthyOptStr s.reasoning_result then "reasoning"
    else if !truthyOptStr s.action_result then "action"
    else "synthesize"
  { s with
    phase := next,
    agent_messages := s.agent_messages ++
      [⟨"supervisor", next, "Activating " ++ next ++ " phase"⟩],
    step_history := s.step_history ++ [⟨"supervisor", "route_to_" ++ next⟩] }

/-- `_research_node` (model output as oracle `r`). -/
def researchNode (r : String) (s : MultiState) : MultiState :=
  { s with
    research_result := some r,
    phase := "supervisor",
    agent_messages := s.agent_messages ++ [⟨"research", "supervisor", "Research complete"⟩],
    step_history := s.step_history ++ [⟨"research_agent", "research_complete"⟩] }

/-- `_reasoning_node` (model output as oracle `n`). -/
def reasoningNode (n : String) (s : MultiState) : MultiState :=
  { s with
    reasoning_result := some n,
    phase := "supervisor",
    agent_messages := s.agent_messages ++ [⟨"reasoning", "supervisor", "Analysis complete"⟩],
    step_history := s.step_history ++ [⟨"reasoning_agent", "analysis_complete"⟩] }

/-- `_action_node` (model output as oracle `a`). -/
def actionNode (a : String) (s : MultiState) : MultiState :=
  { s with
    action_result := some a,
    phase := "supervisor",
    agent_messages := s.agent_messages ++ [⟨"action", "supervisor", "Actions executed"⟩],
    step_history := s.step_history ++ [⟨"action_agent", "actions_executed"⟩] }

/-- `_synthesize_node` (model output as oracle `f`). -/
def synthesizeNode (f : String) (s : MultiState) : MultiState :=
  { s with
    final_answer := some f,
    should_continue := false,
    step_history := s.step_history ++ [⟨"synthesizer", "synthesis_complete"⟩] }

/-- The nodes of the Multi-Phase graph plus the terminal marker. -/
inductive MNode
  | supervisor
  | research
  | reasoning
  | action
  | synthesize
  | terminal
deriving DecidableEq, Repr

/-- `_route_from_supervisor`: dispatch on the phase string. -/
def routeFromSupervisor (s : MultiState) : MNode :=
  if s.phase = "research" then MNode.research
  else if s.phase = "reasoning" then MNode.reasoning
  else if s.phase = "action" then MNode.action
  else MNode.synthesize

/-- Fuel-bounded interpreter for the Multi-Phase graph. -/
def multiExec (r n a f : String) : Nat → MNode → MultiState → MultiState
  | 0, _, s => s
  | _ + 1, MNode.terminal, s => s
  | fuel + 1, MNode.supervisor, s =>
      let s' := supervisorNode s
      multiExec r n a f fuel (routeFromSupervisor s') s'
  | fuel + 1, MNode.research, s =>
      multiExec r n a f fuel MNode.supervisor (researchNode r s)
  | fuel + 1, MNode.reasoning, s =>
      multiExec r n a f fuel MNode.supervisor (reasoningNode n s)
  | fuel + 1, MNode.action, s =>
      multiExec r n a f fuel MNode.supervisor (actionNode a s)
  | fuel + 1, MNode.synthesize, s =>
      multiExec r n a f fuel MNode.terminal (synthesizeNode f s)

/-- The initial `MultiAgentState` built by `MultiAgentOrchestrator.run`. -/
def multiInit (query : String) (max_iterations : Nat) : MultiState :=
  { query := query, phase := "", research_result := none, reasoning_result := none,
    action_result := none, final_answer := none, agent_messages := [],
    step_history := [], iteration := 0, max_iterations := max_iterations,
    should_continue := true }

/-- The final state of `MultiAgentOrchestrator.run` (graph invoked from
`supervisor`). -/
def multiRunState (query : String) (max_iterations : Nat) (r n a f : String) :
    MultiState :=
  multiExec r n a f 25 MNode.supervisor (multiInit query max_iterations)

/-- Specialist step records placed before the `synthesizer` record. -/
def specialistsBeforeSynth (h : List StepRec) : Nat :=
  ((h.takeWhile (fun rec => rec.node != "synthesizer")).filter
    (fun rec => rec.node == "research_agent" || rec.node == "reasoning_agent" ||
      rec.node == "action_agent")).length

example :
    (multiRunState "q" 5 "R" "N" "A" "F").step_history.map (fun rec => rec.node) =
    ["supervisor", "research_agent", "supervisor", "reasoning_agent",
     "supervisor", "action_agent", "supervisor", "synthesizer"] := by decide

/-- C7: when each specialist stores a non-empty result, the supervisor
schedules research, reasoning, action (first-unset priority order) and
then synthesize; the run's `step_history` is exactly the eight-record
alternation, `supervisor` appears once more than the number of
specialist records before the `synthesizer` record, and the
`synthesizer` record is last. -/
theorem multi_supervisor_schedule (q : String) (mi : Nat) (r n a f : String)
    (hr : r.isEmpty = false) (hn : n.isEmpty = false) (ha : a.isEmpty = false) :
    (multiRunState q mi r n a f).step_history.map (fun rec => rec.node) =
      ["supervisor", "research_agent", "supervisor", "reasoning_agent",
       "supervisor", "action_agent", "supervisor", "synthesizer"] ∧
    countNode "supervisor" (multiRunState q mi r n a f).step_history =
      specialistsBeforeSynth (multiRunState q mi r n a f).step_history + 1 ∧
    (multiRunState q mi r n a f).step_history.getLast? =
      some ⟨"synthesizer", "synthesis_complete"⟩ := by
  have hstep : (multiRunState q mi r n a f).step_history =
      [⟨"supervisor", "route_to_" ++ "research"⟩,
       ⟨"research_agent", "research_complete"⟩,
       ⟨"supervisor", "route_to_" ++ "reasoning"⟩,
       ⟨"reasoning_agent", "analysis_complete"⟩,
       ⟨"supervisor", "route_to_" ++ "action"⟩,
       ⟨"action_agent", "actions_executed"⟩,
       ⟨"supervisor", "route_to_" ++ "synthesize"⟩,
       ⟨"synthesizer", "synthesis_complete"⟩] := by
    simp [multiRunState, multiInit, multiExec, supervisorNode, researchNode,
      reasoningNode, actionNode, synthesizeNode, routeFromSupervisor,
      truthyOptStr, hr, hn, ha]
  rw [hstep]
  exact ⟨by decide, by decide, by decide⟩

/-- C7 witness: a concrete run with non-empty specialist results. -/
theorem multi_supervisor_schedule_check :
    countNode "supervisor" (multiRunState "q" 5 "R" "N" "A" "F").step_history =
      specialistsBeforeSynth (multiRunState "q" 5 "R" "N" "A" "F").step_history + 1 ∧
    (multiRunState "q" 5 "R" "N" "A" "F").step_history.getLast? =
      some ⟨"synthesizer", "synthesis_complete"⟩ := by
  have h := multi_supervisor_schedule "q" 5 "R" "N" "A" "F"
    (by decide) (by decide) (by decide)
  exact ⟨h.2.1, h.2.2⟩

/-! ### Recursive-Refine workflow (`recursive_qa.py`)

Confidence scores are Python floats; they are modelled as rationals,
which is faithful for the comparisons the workflow performs. -/

/-- Structured evaluator output (`QAEvaluation`). -/
structure QAEvaluation where
  confidence : ℚ
  is_satisfactory : Bool
  suggested_refinement : String
  reasoning : String
deriving DecidableEq, Repr

/-- One entry of the `history` sequence appended by `_evaluate_node`. -/
structure HistEntry where
  iteration : Nat
  query : String
  answer : String
  confidence : ℚ
  is_satisfactory : Bool
  refinement_suggestion : String
  reasoning : String
deriving DecidableEq, Repr

/-- `RecursiveQAState` (logs and timestamps omitted). -/
structure RecState where
  original_query : String
  current_query : String
  current_answer : String
  confidence : ℚ
  target_confidence : ℚ
  iteration : Nat
  max_iterations : Nat
  history : List HistEntry
  document_context : String
  step_history : List StepRec
  is_complete : Bool
deriving DecidableEq, Repr

/-- `_answer_node`: increments the iteration counter and stores the
model's answer (oracle `ansF`, applied at the new iteration number). -/
def answerNode (ansF : Nat → String) (s : RecState) : RecState :=
  let iteration := s.iteration + 1
  { s with
    current_answer := ansF iteration,
    iteration := iteration,
    step_history := s.step_history ++ [⟨"answer_node", "answer_generated"⟩] }

/-- `_evaluate_node`: obtains the structured evaluation (oracle `evF`,
applied at the current iteration), appends the immutable history entry,
and sets the completion flag per the three-way disjunction. -/
def evaluateNode (evF : Nat → QAEvaluation) (s : RecState) : RecState :=
  let evaluation := evF s.iteration
  let should_stop :=
    decide (s.target_confidence ≤ evaluation.confidence) ||
    decide (s.max_iterations ≤ s.iteration) ||
    evaluation.is_satisfactory
  { s with
    confidence := evaluation.confidence,
    history := s.history ++
      [⟨s.iteration, s.current_query, s.current_answer, evaluation.confidence,
        evaluation.is_satisfactory, evaluation.suggested_refinement,
        evaluation.reasoning⟩],
    is_complete := should_stop,
    step_history := s.step_history ++ [⟨"evaluate_node", "evaluation_complete"⟩] }

/-- `_refine_node`: overwrites the current query with the model's
refinement (oracle `refF`). -/
def refineNode (refF : Nat → String) (s : RecState) : RecState :=
  { s with
    current_query := refF s.iteration,
    step_history := s.step_history ++ [⟨"refine_node", "query_refined"⟩] }

/-- `_should_continue`: `"end"` when the completion flag is set, else
`"refine"`. -/
def shouldContinueLabel (s : RecState) : String :=
  if s.is_complete then "end" else "refine"

/-- The nodes of the Recursive-Refine graph plus the terminal marker. -/
inductive QNode
  | answer
  | evaluate
  | refine
  | terminal
deriving DecidableEq, Repr

/-- The conditional-edge table at `evaluate`:
`{refine ↦ refine, end ↦ END}`. -/
def recRoute (label : String) : QNode :=
  if label = "refine" then QNode.refine else QNode.terminal

/-- Fuel-bounded interpreter for the Recursive-Refine graph. -/
def recExec (ansF : Nat → String) (evF : Nat → QAEvaluation) (refF : Nat → String) :
    Nat → QNode → RecState → RecState
  | 0, _, s => s
  | _ + 1, QNode.terminal, s => s
  | fuel + 1, QNode.answer, s =>
      recExec ansF evF refF fuel QNode.evaluate (answerNode ansF s)
  | fuel + 1, QNode.evaluate, s =>
      let s' := evaluateNode evF s
      recExec ansF evF refF fuel (recRoute (shouldContinueLabel s')) s'
  | fuel + 1, QNode.refine, s =>
      recExec ansF evF refF fuel QNode.answer (refineNode refF s)

/-- The initial `RecursiveQAState` built by `RecursiveQAService.run`. -/
def recInit (query document_context : String) (max_refinements : Nat)
    (target_confidence : ℚ) : RecState :=
  { original_query := query, current_query := query, current_answer := "",
    confidence := 0, target_confidence := target_confidence, iteration := 0,
    max_iterations := max_refinements, history := [],
    document_context := document_context, step_history := [], is_complete := false }

/-- The result dictionary of `RecursiveQAService.run` (status is the
literal `"completed"`: this workflow has no failure path). -/
structure RecRunResult where
  status : String
  final_answer : String
  final_confidence : ℚ
  total_iterations : Nat
  history : List HistEntry
  step_history : List StepRec
deriving DecidableEq, Repr

/-- `RecursiveQAService.run`: execute the graph from `answer` and
package the result. -/
def recRun (ansF : Nat → String) (evF : Nat → QAEvaluation) (refF : Nat → String)
    (query document_context : String) (max_refinements : Nat)
    (target_confidence : ℚ) : RecRunResult :=
  let out := recExec ansF evF refF 25 QNode.answer
    (recInit query document_context max_refinements target_confidence)
  { status := "completed",
    final_answer := out.current_answer,
    final_confidence := out.confidence,
    total_iterations := out.iteration,
    history := out.history,
    step_history := out.step_history }

/-! ### C8: the completion flag and the evaluate-node routing -/

/-- C8: after `evaluate`, the completion flag is set exactly when
confidence reached the target, or the iteration counter reached
`max_iterations`, or the evaluation is satisfactory; the router emits
`"end"` exactly when the flag is set, and the edge table sends `"end"`
to terminal and `"refine"` to the refine node. -/
theorem evaluate_completion_flag (evF : Nat → QAEvaluation) (s : RecState) :
    ((evaluateNode evF s).is_complete = true ↔
      (s.target_confidence ≤ (evF s.iteration).confidence ∨
       s.max_iterations ≤ s.iteration ∨
       (evF s.iteration).is_satisfactory = true)) ∧
    (shouldContinueLabel (evaluateNode evF s) = "end" ↔
      (evaluateNode evF s).is_complete = true) ∧
    (recRoute (shouldContinueLabel (evaluateNode evF s)) =
      if (evaluateNode evF s).is_complete then QNode.terminal else QNode.refine) := by
  refine ⟨?_, ?_, ?_⟩
  · simp [evaluateNode, Bool.or_eq_true, decide_eq_true_eq, or_assoc]
  · by_cases h : (evaluateNode evF s).is_complete = true
    · simp [shouldContinueLabel, h]
    · rw [Bool.not_eq_true] at h
      simp [shouldContinueLabel, h]
  · by_cases h : (evaluateNode evF s).is_complete = true
    · simp [shouldContinueLabel, recRoute, h]
    · rw [Bool.not_eq_true] at h
      simp [shouldContinueLabel, recRoute, h]

/-! ### C9: no failure path, history length, and the bounded loop -/

/-- History/step-count invariant of the executor: the `history` sequence
grows in lockstep with `evaluate_node` step records. -/
theorem recExec_history_count (ansF : Nat → String) (evF : Nat → QAEvaluation)
    (refF : Nat → String) :
    ∀ fuel (node : QNode) (s : RecState),
      (recExec ansF evF refF fuel node s).history.length +
        countNode "evaluate_node" s.step_history =
      countNode "evaluate_node" (recExec ansF evF refF fuel node s).step_history +
        s.history.length := by
  intro fuel
  induction fuel with
  | zero =>
    intro node s
    simp only [recExec]
    omega
  | succ fu ih =>
    intro node s
    cases node with
    | terminal =>
      simp only [recExec]
      omega
    | answer =>
      simp only [recExec]
      have h1 := ih QNode.evaluate (answerNode ansF s)
      have h2 : countNode "evaluate_node" (answerNode ansF s).step_history =
          countNode "evaluate_node" s.step_history := by
        simp [answerNode, countNode_append]
      have h3 : (answerNode ansF s).history = s.history := rfl
      rw [h2, h3] at h1
      exact h1
    | evaluate =>
      simp only [recExec]
      have h1 := ih (recRoute (shouldContinueLabel (evaluateNode evF s)))
        (evaluateNode evF s)
      have h2 : countNode "evaluate_node" (evaluateNode evF s).step_history =
          countNode "evaluate_node" s.step_history + 1 := by
        simp [evaluateNode, countNode_append]
      have h3 : (evaluateNode evF s).history.length = s.history.length + 1 := by
        simp [evaluateNode]
      omega
    | refine =>
      simp only [recExec]
      have h1 := ih QNode.answer (refineNode refF s)
      have h2 : countNode "evaluate_node" (refineNode refF s).step_history =
          countNode "evaluate_node" s.step_history := by
        simp [refineNode, countNode_append]
      have h3 : (refineNode refF s).history = s.history := rfl
      rw [h2, h3] at h1
      exact h1

/-- Constant oracles for the documented low-confidence scenario. -/
def ansConst : Nat → String := fun _ => "the answer"

/-- Evaluator that always reports confidence 0.5 and not satisfactory. -/
def evHalf : Nat → QAEvaluation := fun _ => ⟨1/2, false, "narrow the scope", "incomplete"⟩

def refConst : Nat → String := fun _ => "refined query"

/-- The full trace of the scenario `target_confidence = 0.85`,
`max_iterations = 3`, every evaluation `(0.5, unsatisfactory)`: three
answer/evaluate cycles with two refines, stopping via the iteration
bound. -/
theorem recScenario_state :
    recExec ansConst evHalf refConst 25 QNode.answer (recInit "Q" "" 3 (17/20)) =
    { original_query := "Q", current_query := "refined query",
      current_answer := "the answer", confidence := 1/2,
      target_confidence := 17/20, iteration := 3, max_iterations := 3,
      history :=
        [⟨1, "Q", "the answer", 1/2, false, "narrow the scope", "incomplete"⟩,
         ⟨2, "refined query", "the answer", 1/2, false, "narrow the scope", "incomplete"⟩,
         ⟨3, "refined query", "the answer", 1/2, false, "narrow the scope", "incomplete"⟩],
      document_context := "",
      step_history :=
        [⟨"answer_node", "answer_generated"⟩, ⟨"evaluate_node", "evaluation_complete"⟩,
         ⟨"refine_node", "query_refined"⟩, ⟨"answer_node", "answer_generated"⟩,
         ⟨"evaluate_node", "evaluation_complete"⟩, ⟨"refine_node", "query_refined"⟩,
         ⟨"answer_node", "answer_generated"⟩, ⟨"evaluate_node", "evaluation_complete"⟩],
      is_complete := true } := by
  have h2 : (2⁻¹ : ℚ) < 17/20 := by norm_num
  have h3 : ¬ ((17:ℚ)/20 ≤ 2⁻¹) := by norm_num
  have h4 : ¬ ((17:ℚ)/20 ≤ 1/2) := by norm_num
  have h5 : ((1:ℚ)/2 < 17/20) := by norm_num
  simp [recExec, recInit, answerNode, evaluateNode, refineNode,
    shouldContinueLabel, recRoute, ansConst, evHalf, refConst, h2, h3, h4, h5]

/-- C9: every Recursive-Refine run reports status `completed` (no
failure path) and its history length equals the number of
`evaluate_node` visits; in the scenario `target_confidence = 0.85`,
`max_iterations = 3` with every evaluation at confidence 0.5 and
unsatisfactory, the run performs exactly 3 answer/evaluate cycles and 2
refine cycles, with `history` of length 3. -/
theorem recursive_run_properties :
    (∀ ansF evF refF query ctx maxRef target,
      (recRun ansF evF refF query ctx maxRef target).status = "completed") ∧
    (∀ ansF evF refF query ctx maxRef target,
      (recRun ansF evF refF query ctx maxRef target).history.length =
        countNode "evaluate_node"
          (recRun ansF evF refF query ctx maxRef target).step_history) ∧
    (countNode "answer_node"
        (recRun ansConst evHalf refConst "Q" "" 3 (17/20)).step_history = 3 ∧
     countNode "evaluate_node"
        (recRun ansConst evHalf refConst "Q" "" 3 (17/20)).step_history = 3 ∧
     countNode "refine_node"
        (recRun ansConst evHalf refConst "Q" "" 3 (17/20)).step_history = 2 ∧
     (recRun ansConst evHalf refConst "Q" "" 3 (17/20)).history.length = 3 ∧
     (recRun ansConst evHalf refConst "Q" "" 3 (17/20)).status = "completed") := by
  refine ⟨fun _ _ _ _ _ _ _ => rfl, ?_, ?_, ?_, ?_, ?_, rfl⟩
  · intro ansF evF refF query ctx maxRef target
    have h := recExec_history_count ansF evF refF 25 QNode.answer
      (recInit query ctx maxRef target)
    simp only [recRun]
    simpa [recInit, countNode] using h
  all_goals
    simp only [recRun, recScenario_state]
    decide
